import Mathlib

/-!
Verification development for the MPF show-playback engine (`mpf/assets/show.py`)
and the OPP hardware serial protocol engine (`mpf/platforms/opp.py`).

The Python code is shallowly embedded: nested YAML-like data is the inductive
`PyVal`, Python dicts are ordered association lists (insertion order, first
occurrence wins on lookup, as for real Python dicts whose keys are unique),
stateful methods are explicit state-passing functions, raised exceptions are
error constructors, and `return False` style failures are separate outcome
constructors.
-/

namespace Mpf

/-- A Python value as it occurs in show data: scalars (ints and strings),
lists, and dicts. Dicts are ordered association lists with `PyVal` keys,
mirroring Python dict insertion order; the shows in this code base never hold
duplicate keys. -/
inductive PyVal where
  | vInt (n : Int)
  | vStr (s : String)
  | vList (items : List PyVal)
  | vDict (entries : List (PyVal × PyVal))

mutual

/-- Decidable equality on `PyVal` (the nested inductive defeats `deriving`). -/
def PyVal.decEq : (a b : PyVal) → Decidable (a = b)
  | .vInt a, .vInt b =>
    if h : a = b then .isTrue (by rw [h]) else .isFalse (by intro hh; injection hh; contradiction)
  | .vStr a, .vStr b =>
    if h : a = b then .isTrue (by rw [h]) else .isFalse (by intro hh; injection hh; contradiction)
  | .vList xs, .vList ys =>
    match PyVal.decEqList xs ys with
    | .isTrue h => .isTrue (by rw [h])
    | .isFalse h => .isFalse (by intro hh; injection hh; contradiction)
  | .vDict xs, .vDict ys =>
    match PyVal.decEqEntries xs ys with
    | .isTrue h => .isTrue (by rw [h])
    | .isFalse h => .isFalse (by intro hh; injection hh; contradiction)
  | .vInt _, .vStr _ => .isFalse (by intro h; exact PyVal.noConfusion h)
  | .vInt _, .vList _ => .isFalse (by intro h; exact PyVal.noConfusion h)
  | .vInt _, .vDict _ => .isFalse (by intro h; exact PyVal.noConfusion h)
  | .vStr _, .vInt _ => .isFalse (by intro h; exact PyVal.noConfusion h)
  | .vStr _, .vList _ => .isFalse (by intro h; exact PyVal.noConfusion h)
  | .vStr _, .vDict _ => .isFalse (by intro h; exact PyVal.noConfusion h)
  | .vList _, .vInt _ => .isFalse (by intro h; exact PyVal.noConfusion h)
  | .vList _, .vStr _ => .isFalse (by intro h; exact PyVal.noConfusion h)
  | .vList _, .vDict _ => .isFalse (by intro h; exact PyVal.noConfusion h)
  | .vDict _, .vInt _ => .isFalse (by intro h; exact PyVal.noConfusion h)
  | .vDict _, .vStr _ => .isFalse (by intro h; exact PyVal.noConfusion h)
  | .vDict _, .vList _ => .isFalse (by intro h; exact PyVal.noConfusion h)

/-- Decidable equality on lists of `PyVal`. -/
def PyVal.decEqList : (a b : List PyVal) → Decidable (a = b)
  | [], [] => .isTrue rfl
  | [], _ :: _ => .isFalse (by intro h; exact List.noConfusion h)
  | _ :: _, [] => .isFalse (by intro h; exact List.noConfusion h)
  | x :: xs, y :: ys =>
    match PyVal.decEq x y with
    | .isTrue h1 =>
      match PyVal.decEqList xs ys with
      | .isTrue h2 => .isTrue (by rw [h1, h2])
      | .isFalse h2 => .isFalse (by intro hh; injection hh; contradiction)
    | .isFalse h1 => .isFalse (by intro hh; injection hh; contradiction)

/-- Decidable equality on dict entry lists. -/
def PyVal.decEqEntries : (a b : List (PyVal × PyVal)) → Decidable (a = b)
  | [], [] => .isTrue rfl
  | [], _ :: _ => .isFalse (by intro h; exact List.noConfusion h)
  | _ :: _, [] => .isFalse (by intro h; exact List.noConfusion h)
  | (k1, v1) :: xs, (k2, v2) :: ys =>
    match PyVal.decEq k1 k2 with
    | .isTrue hk =>
      match PyVal.decEq v1 v2 with
      | .isTrue hv =>
        match PyVal.decEqEntries xs ys with
        | .isTrue ht => .isTrue (by rw [hk, hv, ht])
        | .isFalse ht => .isFalse (by intro hh; injection hh; contradiction)
      | .isFalse hv =>
        .isFalse (by intro hh; injection hh with h1 h2; exact hv (congrArg Prod.snd h1))
    | .isFalse hk =>
      .isFalse (by intro hh; injection hh with h1 h2; exact hk (congrArg Prod.fst h1))

end

instance : DecidableEq PyVal := PyVal.decEq

/-- `d[k]` read access on a dict's entry list: first matching key. -/
def dictLookup : List (PyVal × PyVal) → PyVal → Option PyVal
  | [], _ => none
  | (k', v) :: rest, k => if k' = k then some v else dictLookup rest k

/-- `d[k] = v` on a dict's entry list: overwrite the first matching key in
place, or append the new key at the end (Python dict insertion order). -/
def dictSet : List (PyVal × PyVal) → PyVal → PyVal → List (PyVal × PyVal)
  | [], k, v => [(k, v)]
  | (k', v') :: rest, k, v =>
    if k' = k then (k, v) :: rest else (k', v') :: dictSet rest k v

/-- `d.pop(k)`: remove the first matching key, returning its value and the
remaining entries; `none` models Python's `KeyError`. -/
def dictPop : List (PyVal × PyVal) → PyVal → Option (PyVal × List (PyVal × PyVal))
  | [], _ => none
  | (k', v') :: rest, k =>
    if k' = k then some (v', rest)
    else match dictPop rest k with
      | some (v, rest') => some (v, (k', v') :: rest')
      | none => none

/-- Apply `f` to the value stored under the first matching key (used to embed
`target = target[x]` navigation followed by a mutation of `target`). A missing
key would be a Python `KeyError`; the paths fed to this function are produced
by the token walk and always exist, so the missing case leaves the dict
unchanged. -/
def dictUpdateAt : List (PyVal × PyVal) → PyVal → (PyVal → PyVal) → List (PyVal × PyVal)
  | [], _, _ => []
  | (k', v') :: rest, k, f =>
    if k' = k then (k', f v') :: rest else (k', v') :: dictUpdateAt rest k f

/-! ## Token discovery (`Show._get_tokens` / `_walk_show` / `_check_token`) -/

/-- The location kind a token was found in: a dict key (to be renamed on
substitution) or a scalar value (to be overwritten). -/
inductive TokenType where
  | key
  | value
deriving DecidableEq

/-- The token maps a `Show` owns: `tokens` is the set of token names (kept as
an insertion-ordered list), `token_values` and `token_keys` map a token name to
the list of paths where it occurs, in discovery order. A path is the sequence
of dict keys / list indices (list indices encoded as `vInt`) leading to the
occurrence. -/
structure TokenMaps where
  tokens : List String
  token_values : List (String × List (List PyVal))
  token_keys : List (String × List (List PyVal))
deriving DecidableEq

def TokenMaps.empty : TokenMaps := ⟨[], [], []⟩

/-- Append `path` to the path list stored under `token`, creating the entry if
absent (embeds `dict[token] = list()` followed by `.append(path)`). -/
def addPath : List (String × List (List PyVal)) → String → List PyVal →
    List (String × List (List PyVal))
  | [], token, path => [(token, [path])]
  | (t, ps) :: rest, token, path =>
    if t = token then (t, ps ++ [path]) :: rest
    else (t, ps) :: addPath rest token path

/-- `Show._add_token`. -/
def addToken (m : TokenMaps) (token : String) (path : List PyVal)
    (tt : TokenType) : TokenMaps :=
  let tokens := if token ∈ m.tokens then m.tokens else m.tokens ++ [token]
  match tt with
  | .key => { m with tokens := tokens, token_keys := addPath m.token_keys token path }
  | .value => { m with tokens := tokens, token_values := addPath m.token_values token path }

/-- The first match of the token regex `(?<=\()(.*?)(?=\))` in a string: the
(shortest) run of characters after the first `(` and before the next `)`,
provided such a `)` exists. -/
def findToken (s : String) : Option String :=
  match s.data.dropWhile (fun c => c ≠ '(') with
  | [] => none
  | _ :: rest =>
    if rest.any (fun c => c = ')') then
      some (String.mk (rest.takeWhile (fun c => c ≠ ')')))
    else none

/-- `Show._check_token`: the regex search raises `TypeError` on non-string
data (caught and ignored), so only string scalars/keys can contribute. -/
def checkToken (m : TokenMaps) (path : List PyVal) (data : PyVal)
    (tt : TokenType) : TokenMaps :=
  match data with
  | .vStr s =>
    match findToken s with
    | some token => addToken m token path tt
    | none => m
  | _ => m

mutual

/-- `Show._walk_show`: recursive walk of the nested show data, accumulating
token locations. `listIndex` mirrors the Python local `list_index` parameter,
including its quirk of being handed down to children. -/
def walkShow (data : PyVal) (path : List PyVal) (listIndex : Option Nat)
    (m : TokenMaps) : TokenMaps :=
  match data with
  | .vDict entries => walkShowDict entries path m
  | .vList items => (walkShowList items path listIndex m).2
  | v => checkToken m path v .value

/-- The dict branch of `_walk_show`: each key is checked as a key-type token,
then the walk recurses into the value with the key appended to the path. -/
def walkShowDict (entries : List (PyVal × PyVal)) (path : List PyVal)
    (m : TokenMaps) : TokenMaps :=
  match entries with
  | [] => m
  | (k, v) :: rest =>
    let m1 := checkToken m path k .key
    let m2 := walkShow v (path ++ [k]) none m1
    walkShowDict rest path m2

/-- The list branch of `_walk_show`: each element is checked (as a key-type
token), `list_index` starts at 0 (or continues from the value handed in) and
increments per element; the walk recurses with the index appended to the
path. -/
def walkShowList (items : List PyVal) (path : List PyVal)
    (listIndex : Option Nat) (m : TokenMaps) : Option Nat × TokenMaps :=
  match items with
  | [] => (listIndex, m)
  | i :: rest =>
    let m1 := checkToken m path i .key
    let li : Nat := match listIndex with
      | none => 0
      | some n => n + 1
    let m2 := walkShow i (path ++ [PyVal.vInt (Int.ofNat li)]) (some li) m1
    walkShowList rest path (some li) m2

end

/-- `Show._get_tokens`: walk the whole step list (`self.show_steps`, a Python
list) with an empty path. -/
def getTokens (showSteps : List PyVal) : TokenMaps :=
  walkShow (.vList showSteps) [] none .empty

/-! ## `Show.get_show_steps` (deep copy of the template for each play) -/

mutual

/-- `Show.get_show_steps` on one value: recursively rebuild dicts and lists,
returning scalars as-is. Every container on the instance's copy is a fresh
object, which is what makes per-instance token substitution safe. -/
def getShowStepsVal : PyVal → PyVal
  | .vInt n => .vInt n
  | .vStr s => .vStr s
  | .vList items => .vList (getShowStepsList items)
  | .vDict entries => .vDict (getShowStepsEntries entries)

def getShowStepsList : List PyVal → List PyVal
  | [] => []
  | v :: rest => getShowStepsVal v :: getShowStepsList rest

def getShowStepsEntries : List (PyVal × PyVal) → List (PyVal × PyVal)
  | [] => []
  | (k, v) :: rest => (k, getShowStepsVal v) :: getShowStepsEntries rest

end

/-- `Show.get_show_steps()` with the default argument: copy the stored step
list. -/
def getShowSteps (showSteps : List PyVal) : List PyVal :=
  getShowStepsList showSteps

/-! ## Token substitution (`RunningShow._replace_tokens`)

The Python method mutates the running instance's private step copy in place by
path navigation; the embedding performs the same updates functionally on the
instance's step list (wrapped in `vList` so the leading list index of a path
navigates it). Paths produced by the token walk always exist in the copy; a
dangling path (which would raise `KeyError`/`IndexError` in Python) leaves the
structure unchanged here. -/

/-- One navigation-or-mutation step of `target = target[x]`: apply `f` to the
child of `v` selected by `x`. -/
def childUpdate (v : PyVal) (x : PyVal) (f : PyVal → PyVal) : PyVal :=
  match v with
  | .vDict entries => .vDict (dictUpdateAt entries x f)
  | .vList items =>
    match x with
    | .vInt (Int.ofNat i) => .vList (items.modify f i)
    | _ => v
  | _ => v

/-- The value pass of `_replace_tokens` for one path: walk `token_path[:-1]`,
then `target[token_path[-1]] = replacement`. -/
def setValueAtPath (v : PyVal) (path : List PyVal) (replacement : PyVal) : PyVal :=
  match path with
  | [] => v
  | [last] =>
    match v with
    | .vDict entries => .vDict (dictSet entries last replacement)
    | .vList items =>
      match last with
      | .vInt (Int.ofNat i) => .vList (items.set i replacement)
      | _ => v
    | _ => v
  | x :: rest => childUpdate v x (fun child => setValueAtPath child rest replacement)

/-- The key pass of `_replace_tokens` for one path: walk the whole path
(translating components already renamed in this pass through `keys_replaced`),
then `target[replacement] = target.pop(key_name)`. -/
def renameKeyAtPath (v : PyVal) (path : List PyVal)
    (keysReplaced : List (PyVal × PyVal)) (keyName replacement : PyVal) : PyVal :=
  match path with
  | [] =>
    match v with
    | .vDict entries =>
      match dictPop entries keyName with
      | some (popped, rest) => .vDict (dictSet rest replacement popped)
      | none => v
    | _ => v
  | x :: rest =>
    let x' := (dictLookup keysReplaced x).getD x
    childUpdate v x' (fun child => renameKeyAtPath child rest keysReplaced keyName replacement)

/-- Path list lookup in `token_values` / `token_keys`. -/
def pathsFor (m : List (String × List (List PyVal))) (token : String) :
    Option (List (List PyVal)) :=
  match m with
  | [] => none
  | (t, ps) :: rest => if t = token then some ps else pathsFor rest token

/-- `RunningShow._replace_tokens(**kwargs)` on the instance's step list.
First loop: overwrite every value-location of every bound token. Second loop:
rename every key-location, logging each rename in `keys_replaced` so later
paths that pass through an already-renamed key still resolve. -/
def replaceTokens (steps : List PyVal) (tokenValues tokenKeys : List (String × List (List PyVal)))
    (bindings : List (String × PyVal)) : List PyVal :=
  let root0 : PyVal := .vList steps
  let root1 := bindings.foldl (fun root b =>
    match pathsFor tokenValues b.1 with
    | some paths => paths.foldl (fun r p => setValueAtPath r p b.2) root
    | none => root) root0
  let result := bindings.foldl (fun (acc : PyVal × List (PyVal × PyVal)) b =>
    match pathsFor tokenKeys b.1 with
    | some paths =>
      let keyName : PyVal := .vStr ("(" ++ b.1 ++ ")")
      paths.foldl (fun (acc' : PyVal × List (PyVal × PyVal)) p =>
        (renameKeyAtPath acc'.1 p acc'.2 keyName b.2,
         dictSet acc'.2 keyName b.2)) acc
    | none => acc) (root1, [])
  match result.1 with
  | .vList steps' => steps'
  | _ => steps

/-! ## Show loading (`Show.do_load_show`)

`ConfigPlayer.show_players` and the per-section validators live in external
collaborator modules; the registry is a parameter (the list of registered
section names) and, as the engine never interprets section contents,
validation is modelled as the identity on the section's entries.
`Util.string_to_secs` is also external. Modelled from the spec: time values
are plain integer seconds, written either as ints or as strings, with a
leading `+` marking a relative time. -/

/-- Modelled from the spec: `Util.string_to_secs` (utility module not under
`src/`) on the integer-second time values the claims use. A leading `+` is
stripped; non-scalar times are out of scope. -/
def stringToSecs : PyVal → Int
  | .vInt n => n
  | .vStr s => ((if s.startsWith "+" then s.drop 1 else s).toInt?).getD 0
  | _ => 0

/-- `str(step['time'])[0] == '+'`: only a string time can be relative, since
`str` of an int never begins with `+`. (Python would raise `IndexError` on an
empty time string; none of the data considered here has one.) -/
def isRelTime : PyVal → Bool
  | .vStr s => s.startsWith "+"
  | _ => false

/-- How a show load can blow up: `typeErr` models the `TypeError` Python
raises when a step is not a dict (the membership test / item assignment /
item read on `step` all fail for non-dict steps); `invalidSection` is the
`ValueError` for a step key that is neither registered nor `time`;
`invalidRoot` is the `ValueError` for a root that is neither list nor dict. -/
inductive LoadErr where
  | typeErr
  | invalidSection
  | invalidRoot
deriving DecidableEq

/-- The loader's loop state: `step_num`, `total_step_time`, and the
`self.show_steps` accumulated so far. -/
structure LoadSt where
  stepNum : Nat
  totalStepTime : Int
  steps : List PyVal
deriving DecidableEq

def LoadSt.init : LoadSt := ⟨0, 0, []⟩

/-- Outcome of processing one step of the show data. `fail` is the
out-of-order `return False` (the member `show_steps` keeps the steps built so
far); `err` is a raised exception. -/
inductive StepOut where
  | next (st : LoadSt)
  | fail (stepsSoFar : List PyVal)
  | err (e : LoadErr) (stepsSoFar : List PyVal)
deriving DecidableEq

/-- The section loop of `do_load_show`: every key is looked up in the
registry first; a hit is normalized (`{value: {}}` when not a dict) and
validated (modelled as identity, see above); a miss that is not `time` raises.
Returns the validated `(section, config)` entries in iteration order. -/
def processSections (reg : List String) : List (PyVal × PyVal) →
    Except LoadErr (List (PyVal × PyVal))
  | [] => .ok []
  | (key, value) :: rest =>
    match key with
    | .vStr s =>
      if s ∈ reg then
        let cfg : List (PyVal × PyVal) :=
          match value with
          | .vDict es => es
          | v => [(v, PyVal.vDict [])]
        match processSections reg rest with
        | .ok tail => .ok ((key, PyVal.vDict cfg) :: tail)
        | .error e => .error e
      else if s = "time" then processSections reg rest
      else .error .invalidSection
    | _ => .error .invalidSection

/-- Shared tail of the step-loop body: accumulate the relative time, build
the step's action dict (`time` first, then the validated sections) and append
it. -/
def finishStep (reg : List String) (entries : List (PyVal × PyVal)) (stepNum : Nat)
    (total : Int) (relTime : Int) (steps1 : List PyVal) : StepOut :=
  match processSections reg entries with
  | .error e => .err e steps1
  | .ok sections =>
    .next { stepNum := stepNum + 1, totalStepTime := total + relTime,
            steps := steps1 ++ [.vDict ((.vStr "time", .vInt relTime) :: sections)] }

/-- One iteration of the `do_load_show` step loop. -/
def processStep (reg : List String) (step : PyVal) (st : LoadSt) : StepOut :=
  match step with
  | .vDict entries =>
    -- missing `time` defaults to `'+1'` except on step 0 (`0`)
    let timeVal := (dictLookup entries (.vStr "time")).getD
      (if st.stepNum ≠ 0 then .vStr "+1" else .vInt 0)
    let stepTime := stringToSecs timeVal
    -- a first step later than 0 gets a synthetic `{'time': 0}` step before it
    let steps1 := if st.stepNum = 0 ∧ stepTime > 0 then
        st.steps ++ [PyVal.vDict [(.vStr "time", .vInt 0)]]
      else st.steps
    if isRelTime timeVal then
      finishStep reg entries st.stepNum st.totalStepTime stepTime steps1
    else if stepTime < st.totalStepTime then
      -- out of chronological order: warn and `return False`
      .fail steps1
    else
      finishStep reg entries st.stepNum st.totalStepTime (stepTime - st.totalStepTime) steps1
  | _ => .err .typeErr st.steps

/-- Result of running the step loop over a whole step list. -/
inductive LoadRun where
  | done (st : LoadSt)
  | fail (stepsSoFar : List PyVal)
  | err (e : LoadErr) (stepsSoFar : List PyVal)
deriving DecidableEq

/-- The `do_load_show` step loop. -/
def loadStepsGo (reg : List String) : List PyVal → LoadSt → LoadRun
  | [], st => .done st
  | s :: rest, st =>
    match processStep reg s st with
    | .next st' => loadStepsGo reg rest st'
    | .fail ps => .fail ps
    | .err e ps => .err e ps

/-- The raw data handed to `do_load_show`: a list, a dict, or something else. -/
inductive RootData where
  | rList (items : List PyVal)
  | rDict (entries : List (PyVal × PyVal))
  | rOther
deriving DecidableEq

/-- Overall result of `do_load_show`: on success, the built steps, the step
count (`total_steps`) and the token maps; `fail` is the out-of-order
`return False` and `err` a raised exception — in both cases the member
`show_steps` holds the steps parsed before the failure and `total_steps` is
not assigned. -/
inductive LoadResult where
  | ok (steps : List PyVal) (totalSteps : Nat) (maps : TokenMaps)
  | fail (stepsSoFar : List PyVal)
  | err (e : LoadErr) (stepsSoFar : List PyVal)
deriving DecidableEq

/-- After the step loop completes: `total_steps = len(self.show_steps)` and
the token walk (`self._get_tokens()`). -/
def loadFinish : LoadRun → LoadResult
  | .done st => .ok st.steps st.steps.length (getTokens st.steps)
  | .fail ps => .fail ps
  | .err e ps => .err e ps

/-- `Show.do_load_show(data)`. Note the dict case: `data = list(data)` turns
a dict root into the list of its KEYS (not into a one-step list containing the
dict). -/
def doLoadShow (reg : List String) (root : RootData) : LoadResult :=
  match root with
  | .rOther => .err .invalidRoot []
  | .rDict entries =>
    loadFinish (loadStepsGo reg (entries.map Prod.fst) .init)
  | .rList items =>
    loadFinish (loadStepsGo reg items .init)

/-! ## The Show asset and RunningShow state machine

`Show` keeps the loaded template plus the token maps; `RunningShow` is one
playback instance. Wall-clock scheduling, the playback `speed` divisor and the
output-player dispatch are external (clock and `ConfigPlayer` collaborators):
the embedding keeps the state the claims are about — cursor, loop count,
stopped flag, membership in the parent's running set, and completion-callback
fires — and models a timer fire at its due time as one application of
`runNextStep` (the premature-fire guard compares wall-clock floats and passes
at the due time). -/

/-- The arguments of `Show.play` that the embedding tracks (`speed` and the
clock-facing `sync_ms` delay arithmetic are float-valued and external;
`sync_ms = 0` is the immediate-start path the claims exercise; the callback
is tracked as a has-a-callable flag). -/
structure PlayArgs where
  priority : Int := 0
  hold : Option Bool := none
  start_step : Int := 1
  hasCallback : Bool := false
  loops : Int := -1
  sync_ms : Int := 0
  reset : Bool := true
  manual_advance : Bool := false
  key : Option String := none
  show_tokens : List (String × PyVal) := []
deriving DecidableEq

/-- A `Show` asset. `running` is modelled by the per-instance
`inRunningSet` flag of `RSState`; `autoplaySettings` holds the most recent
deferred play's settings. -/
structure MpfShow where
  name : String
  show_steps : List PyVal
  total_steps : Option Nat
  loaded : Bool
  tokens : List String
  token_values : List (String × List (List PyVal))
  token_keys : List (String × List (List PyVal))
  autoplaySettings : Option PlayArgs
deriving DecidableEq

/-- A `RunningShow` instance's state. -/
structure RSState where
  show_steps : List PyVal
  priority : Int
  hold : Bool
  loops : Int
  reset : Bool
  manual_advance : Bool
  key : Option String
  show_tokens : List (String × PyVal)
  stopped : Bool
  total_steps : Nat
  next_step_index : Int
  hasCallback : Bool
  callbackFires : Nat
  inRunningSet : Bool
deriving DecidableEq

/-- `RunningShow.stop()`: idempotent terminal transition — a second call
returns immediately. The first call unregisters from the parent's running
set, unschedules the timer, clears the output players unless held (external
effects) and fires the completion callback if one was supplied. -/
def stopRS (rs : RSState) : RSState :=
  if rs.stopped then rs
  else
    { rs with
      stopped := true
      inRunningSet := false
      callbackFires := rs.callbackFires + (if rs.hasCallback then 1 else 0) }

/-- `RunningShow._run_next_step` fired at its due time: the current step's
sections are dispatched to the output players (external effect), then the
cursor advances — at the last index a positive loop count is decremented
(note: the cursor is NOT reset), a negative loop count wraps the cursor to 0,
and a zero loop count stops the show; otherwise the cursor increments, and
unless `manual_advance` is set the next fire is scheduled. -/
def runNextStep (rs : RSState) : RSState :=
  if rs.next_step_index = (rs.total_steps : Int) - 1 then
    if rs.loops > 0 then { rs with loops := rs.loops - 1 }
    else if rs.loops < 0 then { rs with next_step_index := 0 }
    else stopRS rs
  else { rs with next_step_index := rs.next_step_index + 1 }

/-- `RunningShow.__init__`: build the instance over its private deep copy of
the step data, substitute tokens when both the caller supplied bindings and
the show declares tokens, register in the parent's running set, and (with
`sync_ms == 0`) run the first step immediately. -/
def mkRunningShow (sh : MpfShow) (a : PlayArgs) (hold : Bool) (loops : Int) : RSState :=
  let steps0 := getShowSteps sh.show_steps
  let total := steps0.length
  let idx : Int :=
    if a.start_step > 0 then a.start_step - 1
    else if a.start_step < 0 then (total : Int) + a.start_step
    else 0
  let steps1 :=
    if a.show_tokens ≠ [] ∧ sh.tokens ≠ [] then
      replaceTokens steps0 sh.token_values sh.token_keys a.show_tokens
    else steps0
  let rs : RSState :=
    { show_steps := steps1
      priority := a.priority
      hold := hold
      loops := loops
      reset := a.reset
      manual_advance := a.manual_advance
      key := a.key
      show_tokens := a.show_tokens
      stopped := false
      total_steps := total
      next_step_index := idx
      hasCallback := a.hasCallback
      callbackFires := 0
      inRunningSet := true }
  if a.sync_ms = 0 then runNextStep rs else rs

/-- What a `Show.play` call comes back with: a `RunningShow`, `False` when
the show is not yet loaded, the `TokenMismatch` `ValueError`, or the
`TypeError` of comparing an unset `total_steps` (`None > 1`). -/
inductive PlayOutcome where
  | started (rs : RSState)
  | notLoaded
  | errTokenMismatch
  | errTypeErr
deriving DecidableEq

/-- `Show.play`: the token-binding subset check runs first (and raises before
any state changes); an unloaded show stores the settings for a deferred play
and returns `False`; otherwise an unset `hold` defaults to whether the show
has exactly one step, the loop count is forced to 0 for single-step shows,
and the `RunningShow` is constructed. -/
def play (sh : MpfShow) (a : PlayArgs) : MpfShow × PlayOutcome :=
  if ¬ a.show_tokens.all (fun b => b.1 ∈ sh.tokens) then
    (sh, .errTokenMismatch)
  else if ¬ sh.loaded then
    ({ sh with autoplaySettings := some a }, .notLoaded)
  else
    let hold : Bool :=
      match a.hold with
      | some b => b
      | none => sh.total_steps = some 1   -- `bool(None)` is `False` otherwise
    match sh.total_steps with
    | none => (sh, .errTypeErr)           -- `None > 1` raises `TypeError`
    | some n =>
      let loops := if (n : Int) > 1 then a.loops else 0
      (sh, .started (mkRunningShow sh a hold loops))

/-- The field assignments `do_load_show` performs on a successful load
(`show_steps`, `total_steps`, the token maps) plus the `loaded` flag the asset
machinery sets once loading completes. -/
def installLoad (sh : MpfShow) (steps : List PyVal) (total : Nat)
    (maps : TokenMaps) : MpfShow :=
  { sh with
    show_steps := steps, total_steps := some total, loaded := true
    tokens := maps.tokens, token_values := maps.token_values
    token_keys := maps.token_keys }

/-- Modelled from the spec: the asset-loading machinery (`Asset.load` /
`loaded_callbacks`, in `mpf/core/assets.py`, not under `src/`) finishes a
disk load by installing the parsed data on the show, marking it loaded, and
firing the registered callback — for a deferred play, `Show._autoplay`, which
replays `play(**self._autoplay_settings)`. -/
def finishLoad (sh : MpfShow) (reg : List String) (root : RootData) :
    MpfShow × Option PlayOutcome :=
  match doLoadShow reg root with
  | .ok steps total maps =>
    let show1 := installLoad sh steps total maps
    match show1.autoplaySettings with
    | some a =>
      let r := play show1 a
      (r.1, some r.2)
    | none => (show1, none)
  | .fail ps => ({ sh with show_steps := ps }, none)
  | .err _ ps => ({ sh with show_steps := ps }, none)

/-! ## OPP hardware serial protocol engine (`mpf/platforms/opp.py`)

Bytes are `Nat` values below 256. The CRC8 table lives in
`mpf/platforms/opp_common/opp_rs232_intf.py`, which is not under `src/`; the
protocol logic only compares a received byte against the computed value, so
the CRC is a function parameter `crc : List Nat → Nat` throughout. The
protocol byte constants from the same module are likewise not available;
`0x20` (the gen2 card address base) is pinned by the receive loop's
`(byte & 0xe0) == 0x20` test in `opp.py` itself, the rest are placeholders
(Modelled from the spec: distinct command codes; no claim depends on their
numeric values). -/

/-- `CARD_ID_GEN2_CARD` (its value is forced by the `& 0xe0 == 0x20` address
test in `opp.py`). -/
def OppCardIdGen2Card : Nat := 0x20

/-- Modelled from the spec: `EOM_CMD`, the end-of-message byte. -/
def OppEomCmd : Nat := 0xff

/-- Modelled from the spec: `READ_GEN2_INP_CMD`, the input-state command code. -/
def OppReadGen2InpCmd : Nat := 0x08

/-- Modelled from the spec: `GET_GEN2_CFG`, the configuration command code
(nonzero, which the configuration loop's continuation test relies on). -/
def OppGetGen2Cfg : Nat := 0x07

/-- `NUM_G2_WING_PER_BRD`: a gen2 card has four wing-board slots. -/
def OppNumG2WingPerBrd : Nat := 4

/-- Modelled from the spec: the wing-board type codes. -/
def OppWingSol : Nat := 0x02

def OppWingInp : Nat := 0x01

def OppWingIncand : Nat := 0x03

def OppWingNeo : Nat := 0x04

/-- `OPPInputCard`: an input card's address, channel mask, stored 32-bit
old state, and logical card number string. -/
structure OPPInputCard where
  addr : Nat
  mask : Nat
  oldState : Nat
  cardNum : String
deriving DecidableEq

/-- One switch-transition event pushed to the switch controller:
`process_switch_by_num(state=..., num=...)`. -/
structure SwitchEvent where
  state : Nat
  num : String
deriving DecidableEq

/-- The platform state the claims touch. `opp_inputs` doubles as
`inpAddrDict` (in Python both hold references to the same card objects;
lookups go by address). `opp_incands` / `opp_solenoid` keep `(addr, mask)`
pairs, `opp_neopixels` the card addresses. -/
structure OppState where
  badCRC : Nat
  opp_inputs : List OPPInputCard
  opp_incands : List (Nat × Nat)
  opp_solenoid : List (Nat × Nat)
  opp_neopixels : List Nat
  read_input_msg : List Nat
deriving DecidableEq

/-- `self.inpAddrDict[addr]`: first input card with the given address. -/
def findInpCard : List OPPInputCard → Nat → Option OPPInputCard
  | [], _ => none
  | c :: rest, a => if c.addr = a then some c else findInpCard rest a

/-- `opp_inp.oldState = new_state` on the card stored under `addr`. -/
def updateInpCard : List OPPInputCard → Nat → Nat → List OPPInputCard
  | [], _, _ => []
  | c :: rest, a, newState =>
    if c.addr = a then { c with oldState := newState } :: rest
    else c :: updateInpCard rest a newState

/-- The per-bit diff loop of `read_gen2_inp_resp`: `curr_bit` starts at 1 and
shifts left once per index, an event is emitted for every changed bit, with
state 1 exactly when the new bit is 0 (inverted encoding). -/
def inpEvents (cardNum : String) (changes newState : Nat) : List SwitchEvent :=
  (List.range 32).filterMap (fun index =>
    let currBit := 1 <<< index
    if currBit &&& changes ≠ 0 then
      some { state := if currBit &&& newState = 0 then 1 else 0,
             num := cardNum ++ "-" ++ toString index }
    else none)

/-- The 32-bit state carried by an input-state response sub-frame:
`(msg[2] << 24) | (msg[3] << 16) | (msg[4] << 8) | msg[5]`. -/
def inpNewState (msg : List Nat) : Nat :=
  ((msg.getD 2 0) <<< 24) ||| ((msg.getD 3 0) <<< 16) |||
    ((msg.getD 4 0) <<< 8) ||| msg.getD 5 0

/-- `HardwarePlatform.read_gen2_inp_resp`: on a CRC mismatch the frame is
dropped and the bad-CRC counter incremented; otherwise the addressed card is
looked up (`none` models the `KeyError` for an unknown card), the events for
the changed bits are emitted and the card's stored state becomes the new
state. The returned flag records whether the frame passed the CRC check and
was acted on (dispatched). The machine's switch controller is present in
normal operation, so the defensive `hasattr` test is taken as true. -/
def readGen2InpResp (crc : List Nat → Nat) (st : OppState) (msg : List Nat) :
    Option (OppState × List SwitchEvent × Bool) :=
  if msg.getD 6 0 ≠ crc (msg.take 6) then
    some ({ st with badCRC := st.badCRC + 1 }, [], false)
  else
    match findInpCard st.opp_inputs (msg.getD 0 0) with
    | none => none
    | some card =>
      let newState := inpNewState msg
      let changes := card.oldState ^^^ newState
      let evs := if changes ≠ 0 then inpEvents card.cardNum changes newState else []
      some ({ st with opp_inputs := updateInpCard st.opp_inputs card.addr newState },
        evs, true)

/-- The claim-side description of the emitted events: one event per bit
position at which the stored old state and the received new state differ, in
ascending channel order, reporting active state 1 exactly when the new bit is
0 (inverted encoding). -/
def specInpEvents (cardNum : String) (oldState newState : Nat) : List SwitchEvent :=
  (List.range 32).filterMap (fun index =>
    if Nat.testBit (oldState ^^^ newState) index then
      some { state := if Nat.testBit newState index then 0 else 1,
             num := cardNum ++ "-" ++ toString index }
    else none)

/-- The wing-slot loop of `get_gen2_cfg_resp`: accumulate the solenoid /
input / incandescent masks and the neopixel flag from the four wing type
bytes of the sub-frame at `ci`. -/
def wingLoop (msg : List Nat) (ci : Nat) : Nat × Nat × Nat × Bool :=
  (List.range OppNumG2WingPerBrd).foldl (fun acc w =>
    let b := msg.getD (ci + 2 + w) 0
    if b = OppWingSol then
      (acc.1 ||| (0x0f <<< (4 * w)), acc.2.1 ||| (0x0f <<< (8 * w)), acc.2.2.1, acc.2.2.2)
    else if b = OppWingInp then
      (acc.1, acc.2.1 ||| (0xff <<< (8 * w)), acc.2.2.1, acc.2.2.2)
    else if b = OppWingIncand then
      (acc.1, acc.2.1, acc.2.2.1 ||| (0xff <<< (8 * w)), acc.2.2.2)
    else if b = OppWingNeo then
      (acc.1, acc.2.1, acc.2.2.1, true)
    else acc) (0, 0, 0, false)

/-- The composite poll command appended for a discovered input card:
`[addr, READ_GEN2_INP_CMD, 0, 0, 0, 0]` plus its whole-message CRC8. -/
def inpPollMsg (crc : List Nat → Nat) (addr : Nat) : List Nat :=
  let base := [addr, OppReadGen2InpCmd, 0, 0, 0, 0]
  base ++ [crc base]

/-- The sub-frame loop of `get_gen2_cfg_resp`. A CRC mismatch increments the
bad-CRC counter and BREAKS — the remaining concatenated sub-frames of the
message, valid or not, are never processed. A valid sub-frame builds the
cards for its populated wings (and extends the cached input-poll message),
and the loop continues only when the end-of-message byte has not been reached
and the next sub-frame carries the configuration command code. `dispatched`
counts the sub-frames that were actually processed. -/
def getGen2CfgRespGo (crc : List Nat → Nat) (msg : List Nat) (ci : Nat)
    (st : OppState) (wholeMsg : List Nat) (dispatched : Nat) :
    OppState × List Nat × Nat :=
  if msg.getD (ci + 6) 0 ≠ crc ((msg.drop ci).take 6) then
    ({ st with badCRC := st.badCRC + 1 }, wholeMsg, dispatched)
  else
    let addr := msg.getD ci 0
    let masks := wingLoop msg ci
    let st1 := if masks.2.2.1 ≠ 0 then
        { st with opp_incands := st.opp_incands ++ [(addr, masks.2.2.1)] }
      else st
    let st2 := if masks.1 ≠ 0 then
        { st1 with opp_solenoid := st1.opp_solenoid ++ [(addr, masks.1)] }
      else st1
    let st3 := if masks.2.1 ≠ 0 then
        { st2 with opp_inputs := st2.opp_inputs ++
            [{ addr := addr, mask := masks.2.1, oldState := 0,
               cardNum := toString (addr - OppCardIdGen2Card) }] }
      else st2
    let wholeMsg1 := if masks.2.1 ≠ 0 then wholeMsg ++ inpPollMsg crc addr else wholeMsg
    let st4 := if masks.2.2.2 then
        { st3 with opp_neopixels := st3.opp_neopixels ++ [addr] }
      else st3
    if msg.getD (ci + 7) 0 = OppEomCmd then (st4, wholeMsg1, dispatched + 1)
    else if h : msg.getD (ci + 8) 0 = OppGetGen2Cfg then
      getGen2CfgRespGo crc msg (ci + 7) st4 wholeMsg1 (dispatched + 1)
    else (st4, wholeMsg1, dispatched + 1)
termination_by msg.length - ci
decreasing_by
  have hlt : ci + 8 ≤ msg.length := by
    by_contra hc
    have : msg.getD (ci + 8) 0 = 0 := by
      apply List.getD_eq_default
      omega
    rw [this] at h
    exact absurd h (by decide)
  omega

/-- `HardwarePlatform.get_gen2_cfg_resp`: run the sub-frame loop from index 0
and install the accumulated poll message (terminated by the end-of-message
byte) as `read_input_msg`; also report how many sub-frames were processed. -/
def getGen2CfgResp (crc : List Nat → Nat) (st : OppState) (msg : List Nat) :
    OppState × Nat :=
  let r := getGen2CfgRespGo crc msg 0 st [] 0
  ({ r.1 with read_input_msg := r.2.1 ++ [OppEomCmd] }, r.2.2)

/-- The lost-synch drain of `SerialCommunicator._receive_loop`: discard bytes
until one matching the gen2 card address pattern is found or the buffer
empties. -/
def lostSynchDrain : List Nat → List Nat
  | [] => []
  | b :: rest => if b &&& 0xe0 = 0x20 then b :: rest else lostSynchDrain rest

/-- The drain never grows the buffer (a `def` because the frame-cutting
loop's termination argument below uses it). -/
def lostSynchDrain_length_le : (l : List Nat) → (lostSynchDrain l).length ≤ l.length
  | [] => le_refl _
  | b :: rest => by
    rw [lostSynchDrain]
    split
    · exact le_refl _
    · exact le_trans (lostSynchDrain_length_le rest) (Nat.le_succ _)

/-- The frame-cutting loop of `_receive_loop`: while at least 7 bytes are
buffered, a buffer head matching the card-address pattern with the input-state
command cuts a 7-byte frame onto the receive queue; a card-address head with
any other command drops two bytes and drains to the next card-address byte;
an end-of-message head drops one byte; anything else drops one byte and
drains. Returns the queued frames and the leftover partial message. -/
def rcvSplitGo (buf : List Nat) (acc : List (List Nat)) :
    List (List Nat) × List Nat :=
  if _h7 : 7 ≤ buf.length then
    if buf.getD 0 0 &&& 0xe0 = 0x20 then
      if buf.getD 1 0 = OppReadGen2InpCmd then
        rcvSplitGo (buf.drop 7) (acc ++ [buf.take 7])
      else
        rcvSplitGo (lostSynchDrain (buf.drop 2)) acc
    else if buf.getD 0 0 = OppEomCmd then
      rcvSplitGo (buf.drop 1) acc
    else
      rcvSplitGo (lostSynchDrain (buf.drop 1)) acc
  else (acc, buf)
termination_by buf.length
decreasing_by
  · simp only [List.length_drop]
    omega
  · have := lostSynchDrain_length_le (buf.drop 2)
    simp only [List.length_drop] at this ⊢
    omega
  · simp only [List.length_drop]
    omega
  · have := lostSynchDrain_length_le (buf.drop 1)
    simp only [List.length_drop] at this ⊢
    omega

/-- One receive pass starting from an empty partial message. -/
def rcvSplit (buf : List Nat) : List (List Nat) × List Nat :=
  rcvSplitGo buf []

/-- `HardwarePlatform.process_received_message` for the handlers the claims
exercise: a card-addressed message dispatches on its command byte to the
input-state or configuration handler; an end-of-message byte (or an empty
message, faked as one) is a no-op; an unknown pattern is logged and skipped.
The inventory and firmware-version handlers mutate enumeration state no claim
is about and are left unmodelled (`none`). Returns the updated state, the
emitted events, and how many frames were dispatched to an effectful
handler. -/
def processReceivedMessage (crc : List Nat → Nat) (st : OppState)
    (msg : List Nat) : Option (OppState × List SwitchEvent × Nat) :=
  if 1 ≤ msg.length then
    let b0 := msg.getD 0 0
    if OppCardIdGen2Card ≤ b0 ∧ b0 < OppCardIdGen2Card + 0x20 then
      if 2 ≤ msg.length then
        let cmd := msg.getD 1 0
        if cmd = OppReadGen2InpCmd then
          match readGen2InpResp crc st msg with
          | none => none
          | some (st', evs, dispatched) =>
            some (st', evs, if dispatched then 1 else 0)
        else if cmd = OppGetGen2Cfg then
          let r := getGen2CfgResp crc st msg
          some (r.1, [], r.2)
        else none
      else
        some (st, [], 0)   -- ILLEGAL_CMD: logged, skipped
    else if b0 = OppEomCmd then some (st, [], 0)
    else if b0 = 0 then none   -- INV_CMD: inventory handler unmodelled
    else some (st, [], 0)      -- ILLEGAL_CMD: logged, skipped
  else some (st, [], 0)        -- empty message fakes an EOM

/-- Drain the receive queue through `process_received_message`, concatenating
the emitted events and summing the dispatch counts. -/
def processFrames (crc : List Nat → Nat) (st : OppState) :
    List (List Nat) → Option (OppState × List SwitchEvent × Nat)
  | [] => some (st, [], 0)
  | f :: rest =>
    match processReceivedMessage crc st f with
    | none => none
    | some (st1, evs1, d1) =>
      match processFrames crc st1 rest with
      | none => none
      | some (st2, evs2, d2) => some (st2, evs1 ++ evs2, d1 + d2)

/-! ## Helper definitions for the claims -/

/-- `n` successive due-time timer fires (natural advancement). -/
def advanceN : Nat → RSState → RSState
  | 0, rs => rs
  | n + 1, rs => advanceN n (runNextStep rs)

/-- The private step copy of the instance a `play` call came back with. -/
def instSteps : PlayOutcome → Option (List PyVal)
  | .started rs => some rs.show_steps
  | _ => none

/-- The hold flag of the instance a `play` call came back with. -/
def instHold : PlayOutcome → Option Bool
  | .started rs => some rs.hold
  | _ => none

/-- The loop count of the instance a `play` call came back with. -/
def instLoops : PlayOutcome → Option Int
  | .started rs => some rs.loops
  | _ => none

/-- A `Show` in the loaded state it reaches after `do_load_show` succeeded on
the given steps: step count and token maps as the loader computes them. -/
def mkLoadedShow (name : String) (steps : List PyVal) : MpfShow :=
  let m := getTokens steps
  { name := name, show_steps := steps, total_steps := some steps.length,
    loaded := true, tokens := m.tokens, token_values := m.token_values,
    token_keys := m.token_keys, autoplaySettings := none }

/-- Modelled from the spec: a concrete stand-in CRC8 for instantiating the
`crc` parameter in witnesses and counterexamples. The framing logic only ever
compares a received byte against the computed value, so the real table-driven
polynomial (in `opp_common/opp_rs232_intf.py`, not under `src/`) is
immaterial to every claim; any byte-valued function exhibits the same control
flow. -/
def crcDemo (bs : List Nat) : Nat :=
  (bs.foldl (fun a b => a + b) 0) % 256

/-- The show of the token round-trip scenario: a single step
`{"(token1)": {brightness: "(token2)"}}`. -/
def c3Show : MpfShow :=
  mkLoadedShow "tokenshow"
    [.vDict [(.vStr "(token1)", .vDict [(.vStr "brightness", .vStr "(token2)")])]]

/-- The bindings of the token round-trip scenario. -/
def c3Args : PlayArgs :=
  { show_tokens := [("token1", .vStr "led_1"), ("token2", .vInt 200)] }

/-- A running instance of an infinite-loop (`loops = -1`) two-step show, with
a completion callback supplied. -/
def c4Inst : RSState :=
  { show_steps := [.vDict [(.vStr "time", .vInt 0)], .vDict [(.vStr "time", .vInt 1)]]
    priority := 0, hold := false, loops := -1, reset := true
    manual_advance := false, key := none, show_tokens := []
    stopped := false, total_steps := 2, next_step_index := 0
    hasCallback := true, callbackFires := 0, inRunningSet := true }

/-- A running instance sitting on the last step of a two-step show with one
loop remaining. -/
def c2Inst : RSState :=
  { show_steps := [.vDict [(.vStr "time", .vInt 0)], .vDict [(.vStr "time", .vInt 1)]]
    priority := 0, hold := false, loops := 1, reset := true
    manual_advance := false, key := none, show_tokens := []
    stopped := false, total_steps := 2, next_step_index := 1
    hasCallback := false, callbackFires := 0, inRunningSet := true }

/-- A single-step show for the single-step default scenario. -/
def c9Show : MpfShow :=
  mkLoadedShow "single" [.vDict [(.vStr "time", .vInt 0)]]

/-- A play call binding a token name the show does not declare. -/
def c8Args : PlayArgs :=
  { show_tokens := [("nope", .vInt 1)] }

/-- An unloaded show with no tokens, for the deferred-play scenario. -/
def c10Show : MpfShow :=
  { name := "later", show_steps := [], total_steps := none, loaded := false,
    tokens := [], token_values := [], token_keys := [], autoplaySettings := none }

/-- Two distinguishable play calls for the deferred-play scenario. -/
def c10Args1 : PlayArgs := { priority := 1 }

def c10Args2 : PlayArgs := { priority := 2, loops := 3 }

/-- A platform that has discovered one input card at address `0x20` with all
channels stored inactive (old state `0x00000000`). -/
def c5St0 : OppState :=
  { badCRC := 0, opp_inputs := [⟨0x20, 0xffffffff, 0, "0"⟩]
    opp_incands := [], opp_solenoid := [], opp_neopixels := [], read_input_msg := [] }

/-- The same platform after channel 0 went active-low (stored state
`0x00000001`). -/
def c5St1 : OppState :=
  { badCRC := 0, opp_inputs := [⟨0x20, 0xffffffff, 1, "0"⟩]
    opp_incands := [], opp_solenoid := [], opp_neopixels := [], read_input_msg := [] }

/-- A CRC-valid (under `crcDemo`) input-state response carrying new state
`0x00000001` for card `0x20`. -/
def c5Msg1 : List Nat := [0x20, 0x08, 0, 0, 0, 1, 41]

/-- An input-state response for card `0x20` whose CRC byte is corrupt. -/
def c6BadFrame : List Nat := [0x20, 0x08, 0, 0, 0, 1, 99]

/-- A configuration-response message of two concatenated sub-frames — the
first with a corrupted CRC byte, the second CRC-valid (under `crcDemo`) and
describing an input wing — terminated by the end-of-message byte. -/
def c6CfgMsg : List Nat :=
  [0x20, 0x07, 1, 1, 1, 1, 0] ++ [0x21, 0x07, 1, 0, 0, 0, 41] ++ [0xff]

/-- A platform that has not discovered any cards yet. -/
def c6St0 : OppState :=
  { badCRC := 0, opp_inputs := [], opp_incands := [], opp_solenoid := []
    opp_neopixels := [], read_input_msg := [] }

/-! ## Shared lemmas -/

mutual

/-- The copy produced by `get_show_steps` is structurally identical to the
original (it is a full deep copy, sharing no rebuilt container). -/
theorem getShowStepsVal_eq : (v : PyVal) → getShowStepsVal v = v
  | .vInt _ => rfl
  | .vStr _ => rfl
  | .vList items => by rw [getShowStepsVal, getShowStepsList_eq]
  | .vDict entries => by rw [getShowStepsVal, getShowStepsEntries_eq]

theorem getShowStepsList_eq : (l : List PyVal) → getShowStepsList l = l
  | [] => rfl
  | v :: rest => by rw [getShowStepsList, getShowStepsVal_eq, getShowStepsList_eq]

theorem getShowStepsEntries_eq : (l : List (PyVal × PyVal)) → getShowStepsEntries l = l
  | [] => rfl
  | (k, v) :: rest => by rw [getShowStepsEntries, getShowStepsVal_eq, getShowStepsEntries_eq]

end

/-- Running the step loop over a concatenation processes the pieces in
sequence, carrying the loop state across. -/
theorem loadStepsGo_append (reg : List String) (xs ys : List PyVal) (st : LoadSt) :
    loadStepsGo reg (xs ++ ys) st =
      match loadStepsGo reg xs st with
      | .done st' => loadStepsGo reg ys st'
      | .fail ps => .fail ps
      | .err e ps => .err e ps := by
  induction xs generalizing st with
  | nil => rfl
  | cons s rest ih =>
    simp only [List.cons_append, loadStepsGo]
    cases processStep reg s st <;> simp [ih]

/-- When the shared step-loop tail succeeds, the produced state's `step_num`
is the incoming one plus one. -/
theorem finishStep_next_stepNum (reg : List String) (entries : List (PyVal × PyVal))
    (stepNum : Nat) (total relTime : Int) (steps1 : List PyVal) (st1 : LoadSt)
    (h : finishStep reg entries stepNum total relTime steps1 = .next st1) :
    st1.stepNum = stepNum + 1 := by
  unfold finishStep at h
  split at h
  · exact absurd h (by simp)
  · injection h with h'
    rw [← h']

/-- Every successfully processed step increments `step_num` by one. -/
theorem processStep_next_stepNum (reg : List String) (s : PyVal) (st st1 : LoadSt)
    (h : processStep reg s st = .next st1) : st1.stepNum = st.stepNum + 1 := by
  cases s <;> simp only [processStep] at h
  case vDict entries =>
    repeat' split at h
    all_goals
      first
      | exact finishStep_next_stepNum _ _ _ _ _ _ _ h
      | exact absurd h (by simp)
  all_goals exact absurd h (by simp)

/-- A completed loop run advances `step_num` by the number of steps. -/
theorem loadStepsGo_done_stepNum (reg : List String) (l : List PyVal)
    (st st' : LoadSt) (h : loadStepsGo reg l st = .done st') :
    st'.stepNum = st.stepNum + l.length := by
  induction l generalizing st with
  | nil =>
    simp only [loadStepsGo] at h
    injection h with h'
    rw [← h']
    simp
  | cons s rest ih =>
    simp only [loadStepsGo] at h
    split at h
    case h_1 st1 heq =>
      have := ih st1 h
      have := processStep_next_stepNum reg s st st1 heq
      simp only [List.length_cons]
      omega
    all_goals exact absurd h (by simp)

/-! ## C1: out-of-order absolute times -/

/-- C1 counterexample. The claim states that after an out-of-order absolute
time the show's step sequence is "left unusable rather than holding the steps
parsed before the failure". On the concrete show data
`[{time: 5}, {time: 2}]` loading does fail (`return False`, no exception),
but the member `show_steps` holds exactly the two steps parsed before the
failure (the synthetic `{time: 0}` step and the `{time: 5}` step), not an
unusable/empty sequence. -/
theorem c1_partial_steps_counterexample :
    doLoadShow ["lights"]
        (.rList [.vDict [(.vStr "time", .vInt 5)], .vDict [(.vStr "time", .vInt 2)]]) =
      .fail [.vDict [(.vStr "time", .vInt 0)], .vDict [(.vStr "time", .vInt 5)]] ∧
    ([PyVal.vDict [(.vStr "time", .vInt 0)], PyVal.vDict [(.vStr "time", .vInt 5)]] : List PyVal) ≠ [] := by
  constructor
  · rfl
  · simp

/-- C1 (amended): for every show input whose steps process successfully up to
a step carrying an absolute time smaller than the running total, loading
returns failure (the out-of-order `return False` — abstractly, the
`InvalidShowFormat` failure) without raising, `total_steps` is left
unassigned, and the member `show_steps` retains exactly the steps parsed
before the failure. -/
theorem c1_out_of_order_fails (reg : List String) (pre rest : List PyVal)
    (entries : List (PyVal × PyVal)) (st' : LoadSt) (t : Int)
    (hpre : loadStepsGo reg pre .init = .done st')
    (htime : dictLookup entries (.vStr "time") = some (.vInt t))
    (hlt : t < st'.totalStepTime) :
    doLoadShow reg (.rList (pre ++ .vDict entries :: rest)) = .fail st'.steps ∧
    ∀ sh : MpfShow, (finishLoad sh reg (.rList (pre ++ .vDict entries :: rest))).1 =
      { sh with show_steps := st'.steps } := by
  have hbad : processStep reg (.vDict entries) st' = .fail st'.steps := by
    simp only [processStep, htime, Option.getD_some, stringToSecs, isRelTime]
    have hngt : ¬ (st'.stepNum = 0 ∧ t > 0) := by
      intro ⟨h0, hgt⟩
      -- step 0 means nothing was processed yet, so the running total is 0
      rcases pre with _ | ⟨p, ps⟩
      · simp only [loadStepsGo] at hpre
        injection hpre with h'
        rw [← h'] at hlt
        simp [LoadSt.init] at hlt
        omega
      · have := loadStepsGo_done_stepNum reg (p :: ps) .init st' hpre
        simp [LoadSt.init] at this
        omega
    rw [if_neg hngt, if_neg (by simp), if_pos hlt]
  have hrun : loadStepsGo reg (pre ++ .vDict entries :: rest) .init = .fail st'.steps := by
    rw [loadStepsGo_append, hpre]
    simp only [loadStepsGo, hbad]
  refine ⟨?_, ?_⟩
  · simp only [doLoadShow, hrun, loadFinish]
  · intro sh
    simp only [finishLoad, doLoadShow, hrun, loadFinish]

/-- C1 witness: the amended theorem applied to the concrete data
`[{time: 5}, {time: 2}]` (prefix `[{time: 5}]`, bad step `{time: 2}`). -/
theorem c1_out_of_order_witness :
    loadStepsGo ["lights"] [.vDict [(.vStr "time", .vInt 5)]] LoadSt.init =
      .done ⟨1, 5, [.vDict [(.vStr "time", .vInt 0)], .vDict [(.vStr "time", .vInt 5)]]⟩ ∧
    dictLookup [(.vStr "time", .vInt 2)] (.vStr "time") = some (.vInt 2) ∧
    doLoadShow ["lights"]
        (.rList ([.vDict [(.vStr "time", .vInt 5)]] ++ [.vDict [(.vStr "time", .vInt 2)]])) =
      .fail [.vDict [(.vStr "time", .vInt 0)], .vDict [(.vStr "time", .vInt 5)]] :=
  ⟨rfl, rfl,
    (c1_out_of_order_fails ["lights"] [.vDict [(.vStr "time", .vInt 5)]] []
      [(.vStr "time", .vInt 2)]
      ⟨1, 5, [.vDict [(.vStr "time", .vInt 0)], .vDict [(.vStr "time", .vInt 5)]]⟩ 2
      rfl rfl (by decide)).1⟩

/-! ## C2: advancement at the last step with loops remaining -/

/-- C2 evaluation at the failing input. The claim states that at the last
index with loop count greater than 0 the loop count decrements AND the cursor
wraps to step index 0. On a two-step show instance sitting at the last index
with one loop left, the code decrements the loop count but leaves the cursor
at the last index (the show replays its final step instead of wrapping). The
negative (infinite) and zero loop-count branches behave as claimed. -/
theorem c2_no_wrap_on_decrement :
    (runNextStep c2Inst).loops = 0 ∧
    (runNextStep c2Inst).next_step_index = 1 ∧
    (runNextStep c2Inst).next_step_index ≠ 0 ∧
    (runNextStep c2Inst).stopped = false ∧
    (runNextStep { c2Inst with loops := -1 }).next_step_index = 0 ∧
    (runNextStep { c2Inst with loops := 0 }).stopped = true := by
  refine ⟨rfl, rfl, by decide, rfl, rfl, rfl⟩

/-! ## C7: root-type handling -/

/-- C7 evaluation at the failing input. The claim states a single-map root is
treated as a one-step list containing that map. The code instead runs
`data = list(data)`, producing the list of the dict's KEYS; each key (a
string) is then processed as a step and raises `TypeError`, so loading the
map `{time: 0}` crashes while loading `[{time: 0}]` yields a one-step show.
The second half of the claim (a root that is neither list nor map fails with
the invalid-show-format `ValueError`) does hold. -/
theorem c7_dict_root_is_keys :
    doLoadShow ["lights"] (.rDict [(.vStr "time", .vInt 0)]) = .err .typeErr [] ∧
    doLoadShow ["lights"] (.rList [.vDict [(.vStr "time", .vInt 0)]]) =
      .ok [.vDict [(.vStr "time", .vInt 0)]] 1 TokenMaps.empty ∧
    doLoadShow ["lights"] (.rDict [(.vStr "time", .vInt 0)]) ≠
      doLoadShow ["lights"] (.rList [.vDict [(.vStr "time", .vInt 0)]]) ∧
    doLoadShow ["lights"] .rOther = .err .invalidRoot [] := by
  refine ⟨rfl, rfl, by decide, rfl⟩

/-! ## C3: token round trip and template immutability -/

/-- No branch of `play` writes the parent show's `show_steps` member: the
instance works on the deep copy `get_show_steps` returns. -/
theorem play_preserves_template (sh : MpfShow) (a : PlayArgs) :
    ((play sh a).1).show_steps = sh.show_steps := by
  unfold play
  repeat' split
  all_goals rfl

/-- C3: a show whose single step is `{"(token1)": {brightness: "(token2)"}}`,
played with bindings `{token1: "led_1", token2: 200}`, yields an instance
whose private step copy has key `led_1` mapped to settings holding `200`;
and after any sequence of plays the parent show's stored step sequence is
unchanged (substitution only ever touches the instance's deep copy). -/
theorem c3_token_round_trip :
    instSteps (play c3Show c3Args).2 =
      some [.vDict [(.vStr "led_1", .vDict [(.vStr "brightness", .vInt 200)])]] ∧
    ∀ (sh : MpfShow) (plays : List PlayArgs),
      (plays.foldl (fun s a => (play s a).1) sh).show_steps = sh.show_steps := by
  constructor
  · rfl
  · intro sh plays
    induction plays generalizing sh with
    | nil => rfl
    | cons a rest ih =>
      rw [List.foldl_cons]
      exact (ih ((play sh a).1)).trans (play_preserves_template sh a)

/-! ## C4: infinite-loop shows and stop idempotence -/

/-- Natural advancement of an infinite-loop instance preserves the loop
count, the stopped flag, the callback bookkeeping and the running-set
membership (the stop branch is unreachable). -/
theorem runNextStep_infinite (rs : RSState) (h : rs.loops < 0) :
    (runNextStep rs).loops = rs.loops ∧
    (runNextStep rs).stopped = rs.stopped ∧
    (runNextStep rs).hasCallback = rs.hasCallback ∧
    (runNextStep rs).callbackFires = rs.callbackFires ∧
    (runNextStep rs).inRunningSet = rs.inRunningSet := by
  unfold runNextStep
  have h1 : ¬ rs.loops > 0 := by omega
  split
  · simp [if_neg h1, if_pos h]
  · exact ⟨rfl, rfl, rfl, rfl, rfl⟩

/-- `runNextStep_infinite` iterated. -/
theorem advanceN_infinite (n : Nat) (rs : RSState) (h : rs.loops < 0) :
    (advanceN n rs).loops = rs.loops ∧
    (advanceN n rs).stopped = rs.stopped ∧
    (advanceN n rs).hasCallback = rs.hasCallback ∧
    (advanceN n rs).callbackFires = rs.callbackFires ∧
    (advanceN n rs).inRunningSet = rs.inRunningSet := by
  induction n generalizing rs with
  | zero => exact ⟨rfl, rfl, rfl, rfl, rfl⟩
  | succ n ih =>
    have h1 := runNextStep_infinite rs h
    have h2 := ih (runNextStep rs) (by rw [h1.1]; exact h)
    unfold advanceN
    exact ⟨h2.1.trans h1.1, h2.2.1.trans h1.2.1, h2.2.2.1.trans h1.2.2.1,
      h2.2.2.2.1.trans h1.2.2.2.1, h2.2.2.2.2.trans h1.2.2.2.2⟩

/-- The first `stop()` on a non-stopped instance. -/
theorem stopRS_first (rs : RSState) (h : rs.stopped = false) :
    stopRS rs =
      { rs with stopped := true, inRunningSet := false,
                callbackFires := rs.callbackFires +
                  (if rs.hasCallback then 1 else 0) } := by
  unfold stopRS
  rw [if_neg (by simp [h])]

/-- A second `stop()` is a no-op. -/
theorem stopRS_idem (rs : RSState) : stopRS (stopRS rs) = stopRS rs := by
  by_cases h : rs.stopped = true
  · unfold stopRS
    simp [h]
  · have h' : rs.stopped = false := by simp at h; exact h
    rw [stopRS_first rs h']
    unfold stopRS
    simp

/-- C4: an infinite-loop (`loops < 0`) running instance never reaches
`stopped` through any number of natural advancement steps; the first `stop()`
then transitions it to stopped, removes it from the parent's running set and
fires the completion callback once; and a second `stop()` changes nothing, so
the callback fires at most once. -/
theorem c4_infinite_stop_once (rs : RSState) (n : Nat)
    (hloops : rs.loops < 0) (hrun : rs.stopped = false) :
    (advanceN n rs).stopped = false ∧
    (stopRS (advanceN n rs)).stopped = true ∧
    (stopRS (advanceN n rs)).inRunningSet = false ∧
    (stopRS (advanceN n rs)).callbackFires =
      rs.callbackFires + (if rs.hasCallback then 1 else 0) ∧
    stopRS (stopRS (advanceN n rs)) = stopRS (advanceN n rs) := by
  have ha := advanceN_infinite n rs hloops
  have hstop : (advanceN n rs).stopped = false := ha.2.1.trans hrun
  have hfirst := stopRS_first (advanceN n rs) hstop
  refine ⟨hstop, ?_, ?_, ?_, stopRS_idem _⟩
  · rw [hfirst]
  · rw [hfirst]
  · rw [hfirst]
    simp [ha.2.2.1, ha.2.2.2.1]

/-- C4 witness: a concrete infinite-loop two-step instance, advanced five
times, then stopped twice. -/
theorem c4_infinite_stop_once_witness :
    (c4Inst.loops < 0 ∧ c4Inst.stopped = false) ∧
    ((advanceN 5 c4Inst).stopped = false ∧
    (stopRS (advanceN 5 c4Inst)).stopped = true ∧
    (stopRS (advanceN 5 c4Inst)).inRunningSet = false ∧
    (stopRS (advanceN 5 c4Inst)).callbackFires =
      c4Inst.callbackFires + (if c4Inst.hasCallback then 1 else 0) ∧
    stopRS (stopRS (advanceN 5 c4Inst)) = stopRS (advanceN 5 c4Inst)) :=
  ⟨⟨by decide, by decide⟩, c4_infinite_stop_once c4Inst 5 (by decide) (by decide)⟩

/-! ## C8: token-mismatch rejection -/

/-- C8: a play call supplying a binding name outside the show's declared
token set raises the token-mismatch `ValueError` before anything else
happens: the show is returned unchanged (nothing stored, nothing registered)
and no running instance is created. -/
theorem c8_token_mismatch_rejected (sh : MpfShow) (a : PlayArgs)
    (b : String × PyVal) (hb : b ∈ a.show_tokens) (hnb : b.1 ∉ sh.tokens) :
    play sh a = (sh, .errTokenMismatch) ∧
    ∀ rs, (play sh a).2 ≠ .started rs := by
  have hall : ¬ a.show_tokens.all (fun p => p.1 ∈ sh.tokens) = true := by
    intro hforall
    rw [List.all_eq_true] at hforall
    have := hforall b hb
    exact hnb (by simpa using this)
  have h1 : play sh a = (sh, .errTokenMismatch) := by
    unfold play
    rw [if_pos (by simpa using hall)]
  exact ⟨h1, by rw [h1]; intro rs hrs; exact PlayOutcome.noConfusion hrs⟩

/-- C8 witness: playing the token show with the binding name `nope`. -/
theorem c8_token_mismatch_witness :
    ("nope", PyVal.vInt 1) ∈ c8Args.show_tokens ∧
    play c3Show c8Args = (c3Show, .errTokenMismatch) :=
  ⟨by decide,
    (c8_token_mismatch_rejected c3Show c8Args ("nope", .vInt 1)
      (by decide) (by decide)).1⟩

/-! ## C9: single-step show defaults -/

/-- Advancement never touches the hold flag. -/
theorem runNextStep_hold (rs : RSState) : (runNextStep rs).hold = rs.hold := by
  unfold runNextStep stopRS
  repeat' split
  all_goals rfl

/-- Advancement of a zero-loop instance never changes the loop count (the
decrement branch requires a positive count). -/
theorem runNextStep_loops_zero (rs : RSState) (h : rs.loops = 0) :
    (runNextStep rs).loops = 0 := by
  unfold runNextStep stopRS
  repeat' split
  all_goals simp_all

/-- The instance built by `RunningShow.__init__` carries the hold flag the
constructor was given (also across the immediate first-step run). -/
theorem mkRunningShow_hold (sh : MpfShow) (a : PlayArgs) (hold : Bool) (loops : Int) :
    (mkRunningShow sh a hold loops).hold = hold := by
  simp only [mkRunningShow]
  split
  · rw [runNextStep_hold]
  · rfl

/-- The instance built with loop count `0` still has loop count `0` after the
immediate first-step run. -/
theorem mkRunningShow_loops_zero (sh : MpfShow) (a : PlayArgs) (hold : Bool) :
    (mkRunningShow sh a hold 0).loops = 0 := by
  simp only [mkRunningShow]
  split
  · exact runNextStep_loops_zero _ rfl
  · rfl

/-- C9: playing a loaded single-step show with an unspecified hold flag
yields an instance whose hold flag is `True`, and the instance's loop count
is `0` whatever loop count the caller asked for. -/
theorem c9_single_step_defaults (sh : MpfShow) (a : PlayArgs)
    (htok : a.show_tokens.all (fun p => p.1 ∈ sh.tokens) = true)
    (hloaded : sh.loaded = true)
    (htotal : sh.total_steps = some 1)
    (hhold : a.hold = none) :
    (play sh a).2 = .started (mkRunningShow sh a true 0) ∧
    instHold (play sh a).2 = some true ∧
    instLoops (play sh a).2 = some 0 := by
  have hstarted : (play sh a).2 = .started (mkRunningShow sh a true 0) := by
    unfold play
    rw [if_neg (by simp [htok]), if_neg (by simp [hloaded]), hhold, htotal]
    simp
  refine ⟨hstarted, ?_, ?_⟩
  · rw [hstarted]
    simp only [instHold]
    rw [mkRunningShow_hold]
  · rw [hstarted]
    simp only [instLoops]
    rw [mkRunningShow_loops_zero]

/-- C9 witness: the loaded single-step show played with all-default
arguments (hold unspecified, caller loop count `-1`). -/
theorem c9_single_step_witness :
    c9Show.loaded = true ∧ c9Show.total_steps = some 1 ∧
    instHold (play c9Show {}).2 = some true ∧
    instLoops (play c9Show {}).2 = some 0 :=
  ⟨by decide, by decide,
    (c9_single_step_defaults c9Show {} (by decide) (by decide) (by decide) rfl).2.1,
    (c9_single_step_defaults c9Show {} (by decide) (by decide) (by decide) rfl).2.2⟩

/-! ## C10: deferred play of an unloaded show -/

/-- C10: playing a not-yet-loaded show (once the token check passed) creates
no instance and returns `False`, storing the call's settings; a second such
play overwrites them, so only the most recent pending call's settings are
retained; and when loading completes the deferred play fires with exactly
those settings on the now-loaded show. -/
theorem c10_deferred_play (sh : MpfShow) (a1 a2 : PlayArgs)
    (reg : List String) (root : RootData)
    (hnl : sh.loaded = false)
    (ht1 : a1.show_tokens.all (fun p => p.1 ∈ sh.tokens) = true)
    (ht2 : a2.show_tokens.all (fun p => p.1 ∈ sh.tokens) = true) :
    play sh a1 = ({ sh with autoplaySettings := some a1 }, .notLoaded) ∧
    (∀ rs, (play sh a1).2 ≠ .started rs) ∧
    play (play sh a1).1 a2 = ({ sh with autoplaySettings := some a2 }, .notLoaded) ∧
    (∀ steps total maps, doLoadShow reg root = .ok steps total maps →
      finishLoad (play (play sh a1).1 a2).1 reg root =
        ((play (installLoad { sh with autoplaySettings := some a2 } steps total maps) a2).1,
         some (play (installLoad { sh with autoplaySettings := some a2 } steps total maps) a2).2)) := by
  have h1 : play sh a1 = ({ sh with autoplaySettings := some a1 }, .notLoaded) := by
    unfold play
    rw [if_neg (by simp [ht1]), if_pos (by simp [hnl])]
  have h2 : play (play sh a1).1 a2 = ({ sh with autoplaySettings := some a2 }, .notLoaded) := by
    rw [h1]
    unfold play
    rw [if_neg (by simp [ht2]), if_pos (by simp [hnl])]
  refine ⟨h1, ?_, h2, ?_⟩
  · rw [h1]
    intro rs hrs
    exact PlayOutcome.noConfusion hrs
  · intro steps total maps hok
    rw [h2]
    unfold finishLoad
    rw [hok]
    rfl

/-- C10 witness: two deferred plays of the unloaded show, then load
completion of a one-step show. -/
theorem c10_deferred_play_witness :
    c10Show.loaded = false ∧
    play c10Show c10Args1 = ({ c10Show with autoplaySettings := some c10Args1 }, .notLoaded) ∧
    play (play c10Show c10Args1).1 c10Args2 =
      ({ c10Show with autoplaySettings := some c10Args2 }, .notLoaded) ∧
    finishLoad (play (play c10Show c10Args1).1 c10Args2).1 ["lights"]
        (.rList [.vDict [(.vStr "time", .vInt 0)]]) =
      ((play (installLoad { c10Show with autoplaySettings := some c10Args2 }
          [.vDict [(.vStr "time", .vInt 0)]] 1 TokenMaps.empty) c10Args2).1,
       some (play (installLoad { c10Show with autoplaySettings := some c10Args2 }
          [.vDict [(.vStr "time", .vInt 0)]] 1 TokenMaps.empty) c10Args2).2) := by
  have h := c10_deferred_play c10Show c10Args1 c10Args2 ["lights"]
    (.rList [.vDict [(.vStr "time", .vInt 0)]]) rfl (by decide) (by decide)
  exact ⟨rfl, h.1, h.2.2.1,
    h.2.2.2 [.vDict [(.vStr "time", .vInt 0)]] 1 TokenMaps.empty rfl⟩

/-! ## C5: input-state diffing -/

/-- The loop's shifted mask tests exactly the bit the index addresses. -/
theorem one_shiftLeft_and_ne_zero (i x : Nat) :
    (1 <<< i) &&& x ≠ 0 ↔ x.testBit i = true := by
  rw [Nat.one_shiftLeft, Nat.and_comm, Nat.and_two_pow]
  cases h : x.testBit i
  · simp
  · simp [(Nat.two_pow_pos i).ne']

/-- The event loop of `read_gen2_inp_resp` (including its enclosing
`changes != 0` guard) emits exactly the claim-side event list: one event per
differing bit, active state 1 exactly when the new bit is 0. -/
theorem inpEvents_eq_spec (cardNum : String) (oldState newState : Nat) :
    (if oldState ^^^ newState ≠ 0 then
        inpEvents cardNum (oldState ^^^ newState) newState
      else ([] : List SwitchEvent)) = specInpEvents cardNum oldState newState := by
  have key : inpEvents cardNum (oldState ^^^ newState) newState =
      specInpEvents cardNum oldState newState := by
    unfold inpEvents specInpEvents
    apply List.filterMap_congr
    intro i _
    dsimp only
    have hb := one_shiftLeft_and_ne_zero i (oldState ^^^ newState)
    have hn := one_shiftLeft_and_ne_zero i newState
    by_cases hbit : (oldState ^^^ newState).testBit i = true
    · rw [if_pos (hb.mpr hbit), if_pos hbit]
      by_cases hnew : newState.testBit i = true
      · rw [if_neg (hn.mpr hnew), if_pos hnew]
      · have hnew' : ¬ (1 <<< i) &&& newState ≠ 0 := fun hc => hnew (hn.mp hc)
        rw [if_pos (by omega), if_neg hnew]
    · rw [if_neg (fun hc => hbit (hb.mp hc)), if_neg hbit]
  by_cases h0 : oldState ^^^ newState = 0
  · rw [if_neg (by omega), ← key, h0]
    unfold inpEvents
    simp
  · rw [if_pos h0]
    exact key

/-- A card found under an address carries that address. -/
theorem findInpCard_addr (l : List OPPInputCard) (a : Nat) (c : OPPInputCard)
    (h : findInpCard l a = some c) : c.addr = a := by
  induction l with
  | nil => exact absurd h (by simp [findInpCard])
  | cons x xs ih =>
    unfold findInpCard at h
    split at h
    · injection h with h'
      rw [← h']
      assumption
    · exact ih h

/-- Looking up the address of an updated card yields the card with its new
stored state. -/
theorem findInpCard_update (l : List OPPInputCard) (a ns : Nat) (c : OPPInputCard)
    (h : findInpCard l a = some c) :
    findInpCard (updateInpCard l a ns) a = some { c with oldState := ns } := by
  induction l with
  | nil => exact absurd h (by simp [findInpCard])
  | cons x xs ih =>
    unfold findInpCard at h
    unfold updateInpCard
    split at h
    · injection h with h'
      rw [if_pos (by assumption)]
      unfold findInpCard
      rw [if_pos (by simpa using (by assumption : x.addr = a)), ← h']
    · rw [if_neg (by assumption)]
      unfold findInpCard
      rw [if_neg (by assumption)]
      exact ih h

/-- Shared core of C5 and C6: a CRC-valid input-state response addressed to a
known card updates that card's stored state to the received one and emits the
claim-side event list. -/
theorem readGen2InpResp_valid (crc : List Nat → Nat) (st : OppState)
    (msg : List Nat) (card : OPPInputCard)
    (hcrc : msg.getD 6 0 = crc (msg.take 6))
    (hcard : findInpCard st.opp_inputs (msg.getD 0 0) = some card) :
    readGen2InpResp crc st msg =
      some ({ st with opp_inputs := updateInpCard st.opp_inputs card.addr (inpNewState msg) },
        specInpEvents card.cardNum card.oldState (inpNewState msg), true) := by
  unfold readGen2InpResp
  rw [if_neg (by rw [hcrc]; exact fun hc => hc rfl), hcard]
  dsimp only
  rw [inpEvents_eq_spec]

/-- C5: for every CRC-valid input-state response sub-frame addressed to a
known input card, exactly one switch-transition event is emitted per bit
position at which the card's stored 32-bit state differs from the received
one, with reported active state 1 exactly when the new bit is 0 (inverted
encoding, captured by `specInpEvents`), and the card's stored state then
becomes the new state. -/
theorem c5_input_state_diff (crc : List Nat → Nat) (st : OppState)
    (msg : List Nat) (card : OPPInputCard)
    (hcrc : msg.getD 6 0 = crc (msg.take 6))
    (hcard : findInpCard st.opp_inputs (msg.getD 0 0) = some card) :
    readGen2InpResp crc st msg =
      some ({ st with opp_inputs := updateInpCard st.opp_inputs card.addr (inpNewState msg) },
        specInpEvents card.cardNum card.oldState (inpNewState msg), true) ∧
    findInpCard (updateInpCard st.opp_inputs card.addr (inpNewState msg)) (msg.getD 0 0) =
      some { card with oldState := inpNewState msg } := by
  refine ⟨readGen2InpResp_valid crc st msg card hcrc hcard, ?_⟩
  have haddr := findInpCard_addr _ _ _ hcard
  rw [← haddr] at hcard ⊢
  exact findInpCard_update _ _ _ _ hcard

/-- C5 witness: old state `0x00000000` and new state `0x00000001` emit
exactly one event, for channel 0 (reported state 0, since the new bit is 1);
receiving the same state again emits zero events. -/
theorem c5_input_state_witness :
    readGen2InpResp crcDemo c5St0 c5Msg1 =
      some ({ c5St0 with opp_inputs := [⟨0x20, 0xffffffff, 1, "0"⟩] },
        [{ state := 0, num := "0-0" }], true) ∧
    readGen2InpResp crcDemo c5St1 c5Msg1 =
      some (c5St1, [], true) := by
  constructor
  · have h := (c5_input_state_diff crcDemo c5St0 c5Msg1 ⟨0x20, 0xffffffff, 0, "0"⟩
      (by decide) (by decide)).1
    rw [h]
    decide
  · have h := (c5_input_state_diff crcDemo c5St1 c5Msg1 ⟨0x20, 0xffffffff, 1, "0"⟩
      (by decide) (by decide)).1
    rw [h]
    decide

/-! ## C6: one corrupted sub-frame followed by one valid sub-frame -/

/-- C6 counterexample. The claim states that for EVERY received byte stream
holding one CRC-corrupted sub-frame followed by one valid sub-frame, the bad
frame is dropped, the counter increments once, and processing continues so
the valid frame is dispatched exactly once. For a configuration-response
message this fails: on the concrete two-sub-frame message whose first
sub-frame is corrupted and whose second is CRC-valid, the handler increments
the bad-CRC counter once but BREAKS, processing zero sub-frames — the valid
sub-frame is dropped too (no input card is built). -/
theorem c6_cfg_break_counterexample :
    crcDemo ((c6CfgMsg.drop 7).take 6) = c6CfgMsg.getD 13 0 ∧
    c6CfgMsg.getD 6 0 ≠ crcDemo (c6CfgMsg.take 6) ∧
    (getGen2CfgResp crcDemo c6St0 c6CfgMsg).1.badCRC = 1 ∧
    (getGen2CfgResp crcDemo c6St0 c6CfgMsg).2 = 0 ∧
    (getGen2CfgResp crcDemo c6St0 c6CfgMsg).2 ≠ 1 ∧
    (getGen2CfgResp crcDemo c6St0 c6CfgMsg).1.opp_inputs = [] := by
  unfold getGen2CfgResp
  rw [getGen2CfgRespGo]
  exact ⟨by decide, by decide, by decide, by decide, by decide, by decide⟩

/-- A byte in the gen2 card address range passes the receive loop's
`(byte & 0xe0) == 0x20` test. -/
theorem card_addr_mask (b : Nat) (h1 : 0x20 ≤ b) (h2 : b < 0x40) :
    b &&& 0xe0 = 0x20 := by
  interval_cases b <;> decide

/-- C6 (amended): for input-state response frames fed through the receive
path, the claim holds — the framer cuts both 7-byte frames, the corrupted one
only increments the bad-CRC counter (no events, no state change, no
dispatch), and the valid one is dispatched exactly once, with its events
emitted and its card state stored. For configuration-response messages the
original claim fails (see the counterexample): a bad sub-frame CRC aborts the
whole message, dropping any following valid sub-frame. -/
theorem c6_inp_stream_recovers (crc : List Nat → Nat) (st : OppState)
    (f1 f2 : List Nat) (card : OPPInputCard)
    (hl1 : f1.length = 7) (hl2 : f2.length = 7)
    (ha1 : 0x20 ≤ f1.getD 0 0) (ha1' : f1.getD 0 0 < 0x40)
    (ha2 : 0x20 ≤ f2.getD 0 0) (ha2' : f2.getD 0 0 < 0x40)
    (hc1 : f1.getD 1 0 = OppReadGen2InpCmd)
    (hc2 : f2.getD 1 0 = OppReadGen2InpCmd)
    (hbad : f1.getD 6 0 ≠ crc (f1.take 6))
    (hgood : f2.getD 6 0 = crc (f2.take 6))
    (hcard : findInpCard st.opp_inputs (f2.getD 0 0) = some card) :
    rcvSplit (f1 ++ f2) = ([f1, f2], []) ∧
    processFrames crc st [f1, f2] =
      some ({ st with badCRC := st.badCRC + 1,
                      opp_inputs := updateInpCard st.opp_inputs card.addr (inpNewState f2) },
        specInpEvents card.cardNum card.oldState (inpNewState f2), 1) := by
  constructor
  · unfold rcvSplit
    rw [rcvSplitGo]
    rw [dif_pos (by simp [hl1, hl2])]
    rw [List.getD_append _ _ _ _ (by omega), List.getD_append _ _ _ _ (by omega)]
    rw [if_pos (card_addr_mask _ ha1 ha1'), if_pos hc1]
    rw [show (7 : Nat) = f1.length from hl1.symm, List.take_left, List.drop_left]
    rw [rcvSplitGo]
    rw [dif_pos (by omega)]
    rw [if_pos (card_addr_mask _ ha2 ha2'), if_pos hc2]
    rw [show (7 : Nat) = f2.length from hl2.symm, List.take_length, List.drop_length]
    rw [rcvSplitGo]
    rw [dif_neg (by simp)]
    simp
  · have hp1 : processReceivedMessage crc st f1 =
        some ({ st with badCRC := st.badCRC + 1 }, [], 0) := by
      unfold processReceivedMessage
      rw [if_pos (by omega), if_pos ⟨ha1, by simpa [OppCardIdGen2Card] using ha1'⟩,
        if_pos (by omega), if_pos hc1]
      unfold readGen2InpResp
      rw [if_pos hbad]
      rfl
    have hst1 : ({ st with badCRC := st.badCRC + 1 } : OppState).opp_inputs =
        st.opp_inputs := rfl
    have hp2 : processReceivedMessage crc { st with badCRC := st.badCRC + 1 } f2 =
        some ({ st with badCRC := st.badCRC + 1,
                        opp_inputs := updateInpCard st.opp_inputs card.addr (inpNewState f2) },
          specInpEvents card.cardNum card.oldState (inpNewState f2), 1) := by
      unfold processReceivedMessage
      rw [if_pos (by omega), if_pos ⟨ha2, by simpa [OppCardIdGen2Card] using ha2'⟩,
        if_pos (by omega), if_pos hc2]
      rw [readGen2InpResp_valid crc _ f2 card hgood (by rw [hst1]; exact hcard)]
      rfl
    unfold processFrames
    rw [hp1]
    dsimp only
    simp only [processFrames]
    rw [hp2]
    simp

/-- C6 witness: the amended theorem applied to a concrete corrupted frame
followed by a concrete valid frame on the one-card platform. -/
theorem c6_inp_stream_witness :
    rcvSplit (c6BadFrame ++ c5Msg1) = ([c6BadFrame, c5Msg1], []) ∧
    processFrames crcDemo c5St0 [c6BadFrame, c5Msg1] =
      some ({ c5St0 with badCRC := 1, opp_inputs := [⟨0x20, 0xffffffff, 1, "0"⟩] },
        [{ state := 0, num := "0-0" }], 1) := by
  have h := c6_inp_stream_recovers crcDemo c5St0 c6BadFrame c5Msg1
    ⟨0x20, 0xffffffff, 0, "0"⟩ (by decide) (by decide) (by decide) (by decide)
    (by decide) (by decide) (by decide) (by decide) (by decide) (by decide)
    (by decide)
  refine ⟨h.1, ?_⟩
  rw [h.2]
  decide

end Mpf
